import Mathlib

/-!
Shallow embedding of the AutoResearcher core:
`app/state.py`, `app/graph.py`, `app/agents/planner.py`, `app/agents/searcher.py`,
`app/agents/evaluator.py`, `app/agents/synthesizer.py`, `app/gemini.py`.

External network calls (the Tavily search request, the Gemini generation call)
are abstracted as explicit arguments carrying the response the call would have
produced; everything downstream of those responses is translated directly from
the Python source.  Python floats are modelled as rationals: every score
operation in the source is a comparison, a `min` or a `max`, which the
rational model preserves exactly.  Python dicts for source records are
modelled as a record of optional fields (a missing key is `none`).
-/

namespace AutoResearcher

/-- A source record, the dict appended by `search_agent`:
`{url, content, source_type}` plus the optional `score` and `eval_error`
keys written by `evaluator_agent`.  A missing key is `none`. -/
structure Source where
  url : Option String
  content : Option String
  source_type : Option String
  score : Option ℚ
  eval_error : Option String
deriving DecidableEq, Repr, Inhabited

/-- `ResearchState` from `app/state.py`.  `current_step` starts at 0 and is
only ever incremented, so `Nat` is faithful to the Python `int`. -/
structure ResearchState where
  topic : String
  plan : List String := []
  current_step : Nat := 0
  sources : List Source := []
  report : Option String := none
  status : Option String := none
  progress : Option ℚ := some 0
deriving DecidableEq, Repr

/-- One entry of `resp["results"]` returned by the Tavily client:
`r.get("url")` and `r.get("content")`. -/
structure SearchResult where
  url : Option String
  content : Option String
deriving DecidableEq, Repr

/-- Python string slicing `s[:n]` (the core `String.take` goes through code
the kernel cannot evaluate at these sizes). -/
def pyTake (s : String) (n : Nat) : String :=
  (s.toList.take n).asString

/-- The float constant `0.6` of the evaluator filter, as a pre-normalized
rational (3/5) so that comparisons reduce in the kernel. -/
def qPointSix : ℚ := ⟨3, 5, by norm_num, by norm_num⟩

/-- The conservative default score `0.3`, as a pre-normalized rational
(3/10). -/
def qPointThree : ℚ := ⟨3, 10, by norm_num, by norm_num⟩

/-! ## Searcher (`app/agents/searcher.py`) -/

/-- The `for r in results` deduplication loop of `search_agent`:
`seen` is the set of URLs already in `state.sources` (a `None` for a source
missing the key, as `s.get("url")` yields), and a result is appended only if
its url is present, non-empty and unseen; `content` is `r.get("content") or ""`
truncated to 4000 characters and `source_type` is `"tavily"`. -/
def dedupLoop (seen : List (Option String)) : List SearchResult → List Source
  | [] => []
  | r :: rs =>
    match r.url with
    | none => dedupLoop seen rs
    | some u =>
      if u = "" ∨ some u ∈ seen then dedupLoop seen rs
      else { url := some u, content := some (pyTake (r.content.getD "") 4000),
             source_type := some "tavily", score := none, eval_error := none }
             :: dedupLoop (some u :: seen) rs

/-- `search_agent`.  The Tavily network call is abstracted as the `results`
argument (the `resp.get("results", [])` list).  If the plan is exhausted
(`state.current_step >= len(state.plan)`) the state is returned unchanged;
otherwise the deduplicated new sources are appended and `current_step` is
unconditionally incremented by 1. -/
def search_agent (state : ResearchState) (results : List SearchResult) : ResearchState :=
  if state.plan.length ≤ state.current_step then state
  else
    { state with
      sources := state.sources ++ dedupLoop (state.sources.map (·.url)) results,
      current_step := state.current_step + 1 }

/-- `should_continue` from `app/graph.py`. -/
def should_continue (state : ResearchState) : String :=
  if state.current_step < state.plan.length then "search" else "synthesize"

/-! ## Evaluator (`app/agents/evaluator.py`) -/

/-- The minimal payload `{id, url, snippet}` that `evaluator_agent` builds for
each unscored source (`snippet` is content truncated to 600 characters). -/
structure ScoreItem where
  id : Nat
  url : String
  snippet : String
deriving DecidableEq, Repr

/-- One object of the JSON array the model returns: the result of attempting
the coercions `int(obj["id"])` and `float(obj["score"])`; a failed coercion
(missing key or uncoercible value) is `none`. -/
structure JsonEntry where
  idC : Option Int
  scoreC : Option ℚ
deriving DecidableEq, Repr

/-- Outcome of `json.loads` on the (fence-stripped) model reply: `.error e`
is the parse-failure branch with exception text `e`; `.ok entries` a parsed
JSON array.  A successfully parsed non-array value behaves as `.ok []`
(`scores if isinstance(scores, list) else []` in the source). -/
abbrev EvalResp := Except String (List JsonEntry)

/-- The partition loop `for i, src in enumerate(state.sources)`: already-scored
sources (the `"score"` key is present) go to `kept` in order; the others
become `to_score` payloads carrying their index. -/
def evalPartitionGo (i : Nat) : List Source → List Source × List ScoreItem
  | [] => ([], [])
  | s :: rest =>
    let p := evalPartitionGo (i + 1) rest
    if s.score.isSome then (s :: p.1, p.2)
    else (p.1, ⟨i, s.url.getD "", pyTake (s.content.getD "") 600⟩ :: p.2)

def evalPartition (sources : List Source) : List Source × List ScoreItem :=
  evalPartitionGo 0 sources

/-- One step of building `score_map`:
`score_map[int(obj["id"])] = max(0.0, min(1.0, float(obj["score"])))`,
skipped (`continue`) when either coercion fails. -/
def scoreMapUpd (m : Int → Option ℚ) (e : JsonEntry) : Int → Option ℚ :=
  match e.idC, e.scoreC with
  | some i, some q => fun k => if k = i then some (max 0 (min 1 q)) else m k
  | _, _ => m

/-- The `score_map` dict after the `for obj in scores` loop: later entries for
the same id overwrite earlier ones. -/
def scoreMap (entries : List JsonEntry) : Int → Option ℚ :=
  entries.foldl scoreMapUpd (fun _ => none)

/-- The attach loop of the parse-success path: each `to_score` item looks up
its original source and receives `score_map.get(item["id"], 0.3)`, appended
to `kept` in order. -/
def attachScores (sources kept : List Source) (toScore : List ScoreItem)
    (m : Int → Option ℚ) : List Source :=
  kept ++ toScore.map (fun item =>
    { (sources.get? item.id).getD default with
      score := some ((m (item.id : Int)).getD qPointThree) })

/-- The parse-failure path: each `to_score` item receives the conservative
default score 0.3 and an `eval_error` annotation, appended to `kept`. -/
def evalFailPath (sources kept : List Source) (toScore : List ScoreItem)
    (e : String) : List Source :=
  kept ++ toScore.map (fun item =>
    { (sources.get? item.id).getD default with
      score := some qPointThree,
      eval_error := some ("JSON parse failed: " ++ e) })

/-- `s.get("score", 0)`, the key used by the final filter and sort. -/
def scoreD (s : Source) : ℚ := s.score.getD 0

/-- Insert into a list sorted by descending `scoreD`, keeping the inserted
element before later elements of equal score: together with
`sortByScoreDesc` this is the unique stable descending sort, the behaviour of
Python's `sorted(kept, key=..., reverse=True)`. -/
def insertDesc (x : Source) : List Source → List Source
  | [] => [x]
  | y :: ys => if scoreD x < scoreD y then y :: insertDesc x ys else x :: y :: ys

/-- `sorted(kept, key=lambda s: s.get("score", 0), reverse=True)`. -/
def sortByScoreDesc : List Source → List Source
  | [] => []
  | x :: xs => insertDesc x (sortByScoreDesc xs)

/-- The `kept` list at the end of the parse-success attach loop: the
already-scored sources followed by the freshly scored ones. -/
def keptAfterScoring (sources : List Source) (entries : List JsonEntry) : List Source :=
  attachScores sources (evalPartition sources).1 (evalPartition sources).2
    (scoreMap entries)

/-- The final `state.sources` of the parse-success path:
`filtered = [s for s in kept if s.get("score", 0) >= 0.6]` and then
`filtered if filtered else sorted(kept, key=..., reverse=True)[:3]`. -/
def evalSuccessSources (sources : List Source) (entries : List JsonEntry) : List Source :=
  if (keptAfterScoring sources entries).filter (fun s => qPointSix ≤ scoreD s) = [] then
    (sortByScoreDesc (keptAfterScoring sources entries)).take 3
  else
    (keptAfterScoring sources entries).filter (fun s => qPointSix ≤ scoreD s)

/-- `evaluator_agent`.  The generation call and the `json.loads` attempt on
its reply are abstracted as `resp`.  Note that on the parse-failure branch the
function returns early: the `score >= 0.6` filter and the top-3 fallback run
only on the parse-success path. -/
def evaluator_agent (state : ResearchState) (resp : EvalResp) : ResearchState :=
  if state.sources = [] then state
  else if (evalPartition state.sources).2 = [] then
    { state with sources := (evalPartition state.sources).1 }
  else
    match resp with
    | .error e =>
      { state with
        sources := evalFailPath state.sources (evalPartition state.sources).1
          (evalPartition state.sources).2 e }
    | .ok entries =>
      { state with sources := evalSuccessSources state.sources entries }

/-- Modelled from the spec's words in §4.4: "keep only sources with
`score >= 0.6`. If this filter would empty the set, instead keep the top 3
sources by score (descending; ties broken by original relative order —
'stable' sort) from the full kept set."  Used to compare the spec's claimed
filter policy with what `evaluator_agent` actually computes. -/
def specFilterPolicy (kept : List Source) : List Source :=
  let passing := kept.filter (fun s => qPointSix ≤ scoreD s)
  if passing = [] then (sortByScoreDesc kept).take 3 else passing

/-! ## Python string primitives

`str.split("\n")`, `str.strip()`, `str.startswith` and `str.lower()` are
modelled by structurally recursive functions over the character list (the
core-library versions go through `Substring` code that the kernel cannot
evaluate, which would make concrete instances unprovable). -/

/-- `"\n".join`-inverse: Python's `s.split("\n")` on the character list —
`[[]]` for the empty string, a trailing empty piece for a trailing newline. -/
def splitLinesChars : List Char → List (List Char)
  | [] => [[]]
  | c :: cs =>
    if c = '\n' then [] :: splitLinesChars cs
    else
      match splitLinesChars cs with
      | [] => [[c]]
      | l :: ls => (c :: l) :: ls

/-- Python `output.split("\n")`. -/
def splitLines (s : String) : List String :=
  (splitLinesChars s.toList).map List.asString

/-- Python `s.strip()`: drop leading and trailing whitespace. -/
def pyStrip (s : String) : String :=
  (((s.toList.dropWhile Char.isWhitespace).reverse.dropWhile
      Char.isWhitespace).reverse).asString

/-- Python `s.startswith(pat)`. -/
def pyStartsWith (s pat : String) : Bool :=
  pat.toList.isPrefixOf s.toList

/-- Python `s.lower()`. -/
def pyLower (s : String) : String :=
  (s.toList.map Char.toLower).asString

/-! ## Planner (`app/agents/planner.py`) -/

/-- The characters stripped by `line.lstrip("0123456789.-•) \t")`. -/
def planStripChars : List Char :=
  ['0', '1', '2', '3', '4', '5', '6', '7', '8', '9', '.', '-', '•', ')', ' ', '\t']

/-- `line.lstrip("0123456789.-•) \t")`. -/
def cleanLine (line : String) : String :=
  ⟨line.toList.dropWhile (fun c => c ∈ planStripChars)⟩

/-- The first parsing pass of `planner_agent`: a trimmed line qualifies if it
is non-empty and starts with a digit, `-` or `•`; the stripped remainder is
kept when non-empty. -/
def planLineSteps (output : String) : List String :=
  ((splitLines output).map pyStrip).filterMap (fun line =>
    if line ≠ "" ∧ (line.front.isDigit ∨ pyStartsWith line "-" ∨ pyStartsWith line "•") then
      if cleanLine line ≠ "" then some (cleanLine line) else none
    else none)

/-- The three default queries substituted when parsing yields nothing. -/
def defaultPlanParsed (topic : String) : List String :=
  ["Find recent articles about " ++ topic,
   "Search for expert opinions on " ++ topic,
   "Look for case studies related to " ++ topic]

/-- The three-query fallback plan of the `except` branch. -/
def fallbackPlanOnError (topic : String) : List String :=
  ["Research overview of " ++ topic,
   "Find key developments in " ++ topic,
   "Explore challenges in " ++ topic]

/-- The `steps` list after the basic-split fallback:
`if not steps: steps = [s.strip() for s in output.split("\n") if s.strip()]`. -/
def plannerParsedSteps (output : String) : List String :=
  if planLineSteps output = [] then
    ((splitLines output).map pyStrip).filter (fun s => s ≠ "")
  else planLineSteps output

/-- The final `steps` list: truncate to 4 (`steps = steps[:4]`), then
substitute the three default queries if still empty. -/
def plannerFinalSteps (topic output : String) : List String :=
  if (plannerParsedSteps output).take 4 = [] then defaultPlanParsed topic
  else (plannerParsedSteps output).take 4

/-- `planner_agent`.  The generation call is abstracted as `gen`: `.ok output`
is the text returned by `generate_text`, `.error e` any exception raised
inside the `try` block (which the Python code catches). -/
def planner_agent (state : ResearchState) (gen : Except String String) : ResearchState :=
  match gen with
  | .error _ =>
    { state with
      plan := fallbackPlanOnError state.topic,
      current_step := 0,
      status := some "Using fallback plan due to error" }
  | .ok output =>
    { state with
      plan := plannerFinalSteps state.topic output,
      current_step := 0,
      status := some ("Created plan with " ++
        toString (plannerFinalSteps state.topic output).length ++ " steps") }

/-! ## Synthesizer (`app/agents/synthesizer.py`)

The graph threads a `ResearchState`, so `isinstance(state, dict)` is false on
every call made by the sequencer; the embedding follows the object branch of
each representation check.  The returned `Bool` records whether the
`generate_text` call was issued; `genResp` abstracts its reply. -/

/-- Python truthiness of the `existing_report` optional string:
`None` and `""` are falsy. -/
def reportTruthy : Option String → Bool
  | none => false
  | some r => r ≠ ""

/-- The fixed diagnostic message of the zero-source path. -/
def noSourcesMessage : String :=
  "No sources were retrieved. Check Tavily key/config or try a different query."

/-- `synthesizer_agent` (object-state branch). -/
def synthesizer_agent (state : ResearchState) (genResp : String) : ResearchState × Bool :=
  if reportTruthy state.report then (state, false)
  else if state.sources = [] then ({ state with report := some noSourcesMessage }, false)
  else ({ state with report := some genResp }, true)

/-! ## Generation client (`app/gemini.py`) -/

/-- The outcome of one `client.models.generate_content` attempt:
a reply text, a `google.genai.errors.ClientError` with message `msg`, or any
other exception. -/
inductive ApiOutcome where
  | ok (text : String)
  | clientError (msg : String)
  | otherError (msg : String)
deriving DecidableEq, Repr

/-- The errors `generate_text` can raise: the distinguished rate-limit
`RuntimeError` (carrying the causing client error message), a propagated
non-rate-limit `ClientError`, a propagated other exception, and the trailing
`RuntimeError("Failed to generate text after retries")`. -/
inductive GenError where
  | rateLimitExceeded (msg : String)
  | clientErr (msg : String)
  | otherErr (msg : String)
  | exhausted
deriving DecidableEq, Repr

/-- `pat` occurs as a substring of `s` (Python's `pat in s`). -/
def containsSub (s pat : String) : Bool :=
  (List.range (s.length + 1)).any (fun i => pat.toList.isPrefixOf (s.toList.drop i))

/-- The rate-limit test:
`"429" in error_str or "RESOURCE_EXHAUSTED" in error_str or "quota" in error_str.lower()`. -/
def isRateLimitMsg (msg : String) : Bool :=
  containsSub msg "429" || containsSub msg "RESOURCE_EXHAUSTED" ||
    containsSub (pyLower msg) "quota"

/-- The `for attempt in range(max_retries)` loop of `generate_text`, with the
remaining number of iterations explicit.  Returns the result together with
the list of backoff delays slept (`time.sleep(delay)` before each retry);
`attempt < max_retries - 1` is `0 < r`.  The global inter-call throttle
(`_min_request_interval`) only delays wall-clock time and is not modelled. -/
def genLoop (outcomes : Nat → ApiOutcome) : Nat → Nat → ℚ → Except GenError String × List ℚ
  | _, 0, _ => (.error .exhausted, [])
  | attempt, r + 1, delay =>
    match outcomes attempt with
    | .ok t => (.ok t, [])
    | .clientError m =>
      if isRateLimitMsg m then
        if 0 < r then
          ((genLoop outcomes (attempt + 1) r (min (delay * 2) 30)).1,
           delay :: (genLoop outcomes (attempt + 1) r (min (delay * 2) 30)).2)
        else (.error (.rateLimitExceeded m), [])
      else (.error (.clientErr m), [])
    | .otherError m => (.error (.otherErr m), [])

/-- `generate_text(prompt, max_retries=3)`: the provider is abstracted as the
per-attempt outcome function; the initial backoff delay is 3 seconds. -/
def generate_text (outcomes : Nat → ApiOutcome) (maxRetries : Nat := 3) :
    Except GenError String × List ℚ :=
  genLoop outcomes 0 maxRetries 3

/-! ## Step sequencer (`app/graph.py`) -/

/-- The `evaluate → search` loop of the compiled graph: while
`should_continue` says `"search"`, run `search_agent` then `evaluator_agent`
(with per-step oracles for the external responses), for at most `fuel`
iterations. -/
def runLoop (results : Nat → List SearchResult) (resps : Nat → EvalResp) :
    ResearchState → Nat → ResearchState
  | state, 0 => state
  | state, fuel + 1 =>
    if should_continue state = "search" then
      runLoop results resps
        (evaluator_agent (search_agent state (results state.current_step))
          (resps state.current_step)) fuel
    else state

/-! ## Sample data used by concrete witnesses and counterexamples -/

/-- An unscored source as `search_agent` appends it. -/
def mkSampleSource (u : String) : Source :=
  { url := some u, content := some "c", source_type := some "tavily",
    score := none, eval_error := none }

/-- A state holding four unscored sources. -/
def fourSourceState : ResearchState :=
  { topic := "t",
    sources := [mkSampleSource "a", mkSampleSource "b", mkSampleSource "c",
                mkSampleSource "d"] }

/-! ## Theorems -/

/-! ### Helper lemmas -/

theorem qPointSix_eq : qPointSix = 6/10 := by
  rw [show ((6:ℚ)/10) = 3/5 by norm_num, qPointSix, Rat.mk'_eq_divInt,
    Rat.divInt_eq_div]
  norm_num

theorem qPointThree_eq : qPointThree = 3/10 := by
  rw [qPointThree, Rat.mk'_eq_divInt, Rat.divInt_eq_div]
  norm_num

theorem evalPartitionGo_length (i : Nat) (l : List Source) :
    (evalPartitionGo i l).1.length + (evalPartitionGo i l).2.length = l.length := by
  induction l generalizing i with
  | nil => rfl
  | cons s rest ih =>
    simp only [evalPartitionGo]
    split <;> simp only [List.length_cons] <;> rw [← ih (i + 1)] <;> omega

theorem insertDesc_perm (x : Source) (l : List Source) :
    (insertDesc x l).Perm (x :: l) := by
  induction l with
  | nil => exact List.Perm.refl _
  | cons y ys ih =>
    simp only [insertDesc]
    split
    · exact (List.Perm.cons y ih).trans (List.Perm.swap x y ys)
    · exact List.Perm.refl _

theorem sortByScoreDesc_perm (l : List Source) : (sortByScoreDesc l).Perm l := by
  induction l with
  | nil => exact List.Perm.refl _
  | cons x xs ih => exact (insertDesc_perm x _).trans (List.Perm.cons x ih)

/-! ### C3: the evaluator never empties a non-empty sources list -/

/-- C3: for every state in which `sources` is non-empty before
`evaluator_agent` runs, `sources` is non-empty after it returns, on every
response (parse failure included), even when every parsed score is below 0.6
(the top-3 fallback engages). -/
theorem keptAfterScoring_length (sources : List Source) (entries : List JsonEntry) :
    (keptAfterScoring sources entries).length = sources.length := by
  have hlen := evalPartitionGo_length 0 sources
  unfold keptAfterScoring attachScores
  rw [List.length_append, List.length_map]
  unfold evalPartition
  omega

theorem evaluator_preserves_nonempty (state : ResearchState) (resp : EvalResp)
    (h : state.sources ≠ []) : (evaluator_agent state resp).sources ≠ [] := by
  have hlen := evalPartitionGo_length 0 state.sources
  have hpos : 0 < state.sources.length := List.length_pos.mpr h
  unfold evaluator_agent
  rw [if_neg h]
  by_cases ht : (evalPartition state.sources).2 = []
  · rw [if_pos ht]
    show (evalPartition state.sources).1 ≠ []
    apply List.length_pos.mp
    unfold evalPartition at ht ⊢
    rw [ht] at hlen
    simp only [List.length_nil] at hlen
    omega
  · rw [if_neg ht]
    cases resp with
    | error e =>
      show evalFailPath state.sources (evalPartition state.sources).1
        (evalPartition state.sources).2 e ≠ []
      intro hc
      have hlc := congrArg List.length hc
      simp only [evalFailPath, List.length_append, List.length_map,
        List.length_nil] at hlc
      unfold evalPartition at hlc hlen
      omega
    | ok entries =>
      show evalSuccessSources state.sources entries ≠ []
      have hk2len := keptAfterScoring_length state.sources entries
      unfold evalSuccessSources
      split
      · -- fallback branch: take 3 of the sorted kept set
        rw [Ne, List.take_eq_nil_iff]
        push_neg
        refine ⟨by omega, ?_⟩
        intro hs
        have hpl := (sortByScoreDesc_perm (keptAfterScoring state.sources entries)).length_eq
        rw [hs] at hpl
        simp only [List.length_nil] at hpl
        omega
      · -- the filter itself was non-empty
        assumption

/-- Concrete instance of `evaluator_preserves_nonempty`. -/
theorem evaluator_preserves_nonempty_witness :
    (evaluator_agent fourSourceState (Except.error "boom")).sources ≠ [] :=
  evaluator_preserves_nonempty fourSourceState (Except.error "boom") (by decide)

/-! ### C8: the synthesizer write-once guard -/

/-- C8 (counterexample): a state whose `report` is set — to the empty
string — on which `synthesizer_agent` is not a no-op: it issues the
generation call and overwrites `report`.  This refutes the claim that a set
`report` always short-circuits the synthesizer. -/
theorem synthesizer_set_report_not_noop_cx :
    (({ topic := "t", sources := [mkSampleSource "a"], report := some "" } :
        ResearchState).report).isSome = true ∧
    synthesizer_agent
        { topic := "t", sources := [mkSampleSource "a"], report := some "" } "regen" ≠
      ({ topic := "t", sources := [mkSampleSource "a"], report := some "" }, false) ∧
    (synthesizer_agent
        { topic := "t", sources := [mkSampleSource "a"], report := some "" } "regen").2
      = true ∧
    (synthesizer_agent
        { topic := "t", sources := [mkSampleSource "a"], report := some "" } "regen").1.report
      = some "regen" := by
  refine ⟨rfl, ?_, rfl, rfl⟩
  intro hc
  have := congrArg (fun p => p.1.report) hc
  simp [synthesizer_agent, reportTruthy] at this

/-- C8 (amended): for every state in which `report` is set to a non-empty
string, `synthesizer_agent` is a no-op — it returns the state unchanged, even
when `sources` differs from the sources present when `report` was written,
and it issues no generation call. -/
theorem synthesizer_noop_nonempty_report (state : ResearchState)
    (genResp r : String) (h1 : state.report = some r) (h2 : r ≠ "") :
    synthesizer_agent state genResp = (state, false) := by
  unfold synthesizer_agent
  rw [h1]
  simp [reportTruthy, h2]

/-- Concrete instance of `synthesizer_noop_nonempty_report`. -/
theorem synthesizer_noop_nonempty_report_witness :
    synthesizer_agent { topic := "t", sources := [], report := some "done" } "other" =
      ({ topic := "t", sources := [], report := some "done" }, false) :=
  synthesizer_noop_nonempty_report _ "other" "done" rfl (by decide)

/-! ### C9: the zero-source path of the synthesizer -/

/-- C9: for every state with no report set and an empty sources list,
`synthesizer_agent` sets `report` to the fixed diagnostic message and issues
no generation call. -/
theorem synthesizer_zero_sources (state : ResearchState) (genResp : String)
    (h1 : state.report = none) (h2 : state.sources = []) :
    synthesizer_agent state genResp =
      ({ state with report := some noSourcesMessage }, false) := by
  unfold synthesizer_agent
  rw [h1, h2]
  simp [reportTruthy]

/-- Concrete instance of `synthesizer_zero_sources`. -/
theorem synthesizer_zero_sources_witness :
    synthesizer_agent { topic := "t" } "unused" =
      ({ topic := "t", report := some noSourcesMessage }, false) :=
  synthesizer_zero_sources { topic := "t" } "unused" rfl rfl

/-! ### C10: an empty-string report is treated as absent -/

/-- C10: for every state whose `report` equals the empty string,
`synthesizer_agent` behaves exactly as if `report` were absent — it does not
take the already-synthesized no-op path; in particular, with any sources
present it issues the generation call and overwrites `report`, so the
write-once guard holds only for non-empty reports. -/
theorem synthesizer_empty_report_regenerates (state : ResearchState)
    (genResp : String) (h : state.report = some "") :
    synthesizer_agent state genResp =
      synthesizer_agent { state with report := none } genResp ∧
    (state.sources ≠ [] →
      (synthesizer_agent state genResp).2 = true ∧
      (synthesizer_agent state genResp).1.report = some genResp) := by
  unfold synthesizer_agent
  rw [h]
  constructor
  · simp [reportTruthy]
  · intro hs
    simp [reportTruthy, hs]

/-- Concrete instance of `synthesizer_empty_report_regenerates`. -/
theorem synthesizer_empty_report_regenerates_witness :
    (synthesizer_agent
        { topic := "t", sources := [mkSampleSource "a"], report := some "" } "fresh").1.report
      = some "fresh" :=
  (((synthesizer_empty_report_regenerates
      { topic := "t", sources := [mkSampleSource "a"], report := some "" } "fresh"
      rfl).2) (by decide)).2

/-! ### C4: URL uniqueness is preserved by the searcher -/

theorem dedupLoop_sound (results : List SearchResult) :
    ∀ seen : List (Option String),
      ((dedupLoop seen results).map (·.url)).Nodup ∧
        ∀ s ∈ dedupLoop seen results, ∃ u, s.url = some u ∧ u ≠ "" ∧ some u ∉ seen := by
  induction results with
  | nil =>
    intro seen
    exact ⟨List.nodup_nil, by intro s hs; exact absurd hs (List.not_mem_nil s)⟩
  | cons r rs ih =>
    intro seen
    obtain ⟨ru, rc⟩ := r
    cases ru with
    | none => exact ih seen
    | some u =>
      by_cases hc : u = "" ∨ some u ∈ seen
      · have hred : dedupLoop seen (⟨some u, rc⟩ :: rs) = dedupLoop seen rs := by
          simp only [dedupLoop]
          exact if_pos hc
        rw [hred]
        exact ih seen
      · rw [not_or] at hc
        obtain ⟨hne, hnotin⟩ := hc
        have hred : dedupLoop seen (⟨some u, rc⟩ :: rs) =
            { url := some u, content := some (pyTake (rc.getD "") 4000),
              source_type := some "tavily", score := none, eval_error := none }
              :: dedupLoop (some u :: seen) rs := by
          simp only [dedupLoop]
          exact if_neg (not_or.mpr ⟨hne, hnotin⟩)
        rw [hred]
        obtain ⟨ih1, ih2⟩ := ih (some u :: seen)
        constructor
        · rw [List.map_cons, List.nodup_cons]
          refine ⟨?_, ih1⟩
          intro hmem
          obtain ⟨s, hs, hsu⟩ := List.mem_map.mp hmem
          obtain ⟨v, hv, _, hvs⟩ := ih2 s hs
          rw [hv] at hsu
          exact hvs (by rw [hsu]; exact List.mem_cons_self _ _)
        · intro s hs
          rcases List.mem_cons.mp hs with rfl | hs'
          · exact ⟨u, rfl, hne, hnotin⟩
          · obtain ⟨v, hv, hvne, hvs⟩ := ih2 s hs'
            exact ⟨v, hv, hvne, fun hmem => hvs (List.mem_cons_of_mem _ hmem)⟩

theorem search_agent_nodup (state : ResearchState) (results : List SearchResult)
    (h : (state.sources.map (·.url)).Nodup) :
    (((search_agent state results).sources.map (·.url)).Nodup) := by
  unfold search_agent
  split
  · exact h
  · show ((state.sources ++ dedupLoop (state.sources.map (·.url)) results).map (·.url)).Nodup
    rw [List.map_append, List.nodup_append]
    refine ⟨h, (dedupLoop_sound results _).1, ?_⟩
    intro a ha hb
    obtain ⟨s, hs, hsu⟩ := List.mem_map.mp hb
    obtain ⟨v, hv, _, hvs⟩ := (dedupLoop_sound results _).2 s hs
    rw [hv] at hsu
    exact hvs (hsu ▸ ha)

/-- C4: if the `url` values in `state.sources` are pairwise distinct, then
after `search_agent` runs — with any result list, overlapping URLs included —
they remain pairwise distinct; every appended record has a present, non-empty
`url`; and a second `search_agent` invocation with overlapping result URLs
still yields no duplicate `url` entries. -/
theorem search_agent_url_invariant (state : ResearchState)
    (results results2 : List SearchResult)
    (h : (state.sources.map (·.url)).Nodup) :
    (((search_agent state results).sources.map (·.url)).Nodup) ∧
    (∀ s ∈ dedupLoop (state.sources.map (·.url)) results,
        ∃ u, s.url = some u ∧ u ≠ "") ∧
    (((search_agent (search_agent state results) results2).sources.map
        (·.url)).Nodup) := by
  refine ⟨search_agent_nodup state results h, ?_, ?_⟩
  · intro s hs
    obtain ⟨u, hu, hne, _⟩ := (dedupLoop_sound results _).2 s hs
    exact ⟨u, hu, hne⟩
  · exact search_agent_nodup _ results2 (search_agent_nodup state results h)

/-- Concrete instance of `search_agent_url_invariant`: a second search whose
results repeat an existing URL adds no duplicate. -/
theorem search_agent_url_invariant_witness :
    ((search_agent
        (search_agent { topic := "t", plan := ["q1", "q2"] }
          [⟨some "a", some "x"⟩])
        [⟨some "a", some "y"⟩, ⟨some "b", some "z"⟩]).sources.map (·.url)).Nodup :=
  (search_agent_url_invariant { topic := "t", plan := ["q1", "q2"] }
    [⟨some "a", some "x"⟩] [⟨some "a", some "y"⟩, ⟨some "b", some "z"⟩]
    (by decide)).2.2

/-! ### C6: the planner is total and falls back to the default plan -/

/-- C6: for every topic and every outcome of the generation call (any string,
or any raised exception), `planner_agent` returns normally with a non-empty
plan of length at most 4 and `current_step = 0`; and when the generation
output contains no parseable lines (every line is blank after trimming), the
plan is exactly the three default queries templated from the topic. -/
theorem planner_agent_total_spec (state : ResearchState)
    (gen : Except String String) :
    (planner_agent state gen).plan ≠ [] ∧
    (planner_agent state gen).plan.length ≤ 4 ∧
    (planner_agent state gen).current_step = 0 ∧
    ∀ output, gen = .ok output →
      ((splitLines output).map pyStrip).filter (fun s => s ≠ "") = [] →
      (planner_agent state gen).plan = defaultPlanParsed state.topic := by
  cases gen with
  | error e =>
    refine ⟨by simp [planner_agent, fallbackPlanOnError], ?_, rfl, ?_⟩
    · show (fallbackPlanOnError state.topic).length ≤ 4
      simp [fallbackPlanOnError]
    · intro output hok
      exact absurd hok (by simp)
  | ok output =>
    refine ⟨?_, ?_, rfl, ?_⟩
    · show plannerFinalSteps state.topic output ≠ []
      unfold plannerFinalSteps
      split
      · simp [defaultPlanParsed]
      · assumption
    · show (plannerFinalSteps state.topic output).length ≤ 4
      unfold plannerFinalSteps
      split
      · simp [defaultPlanParsed]
      · exact List.length_take_le 4 _
    · intro out hok hblank
      injection hok with hok
      subst hok
      have hsteps0 : planLineSteps output = [] := by
        unfold planLineSteps
        rw [List.filterMap_eq_nil_iff]
        intro line hline
        have hempty : line = "" := by
          by_contra hne
          have hmem : line ∈ ((splitLines output).map pyStrip).filter
              (fun s => s ≠ "") := List.mem_filter.mpr ⟨hline, by simpa using hne⟩
          rw [hblank] at hmem
          exact absurd hmem (List.not_mem_nil line)
        simp [hempty]
      have hparsed : plannerParsedSteps output = [] := by
        unfold plannerParsedSteps
        rw [hsteps0]
        exact hblank
      show plannerFinalSteps state.topic output = defaultPlanParsed state.topic
      unfold plannerFinalSteps
      rw [hparsed]
      rfl

/-- Concrete instance of `planner_agent_total_spec`: blank generation output
yields the default three-query plan. -/
theorem planner_agent_total_spec_witness :
    (planner_agent { topic := "T" } (Except.ok "  \n ")).plan =
      defaultPlanParsed "T" ∧
    (planner_agent { topic := "T" } (Except.ok "  \n ")).plan ≠ [] :=
  ⟨(planner_agent_total_spec { topic := "T" } (Except.ok "  \n ")).2.2.2
      "  \n " rfl (by decide),
   (planner_agent_total_spec { topic := "T" } (Except.ok "  \n ")).1⟩

/-! ### C2: the search/evaluate loop terminates within `len(plan)` calls -/

theorem search_agent_plan_frame (s : ResearchState) (rs : List SearchResult) :
    (search_agent s rs).plan = s.plan := by
  unfold search_agent
  split <;> rfl

theorem search_agent_step (s : ResearchState) (rs : List SearchResult)
    (h : s.current_step < s.plan.length) :
    (search_agent s rs).current_step = s.current_step + 1 := by
  unfold search_agent
  rw [if_neg (Nat.not_le.mpr h)]

theorem evaluator_agent_frame (s : ResearchState) (r : EvalResp) :
    (evaluator_agent s r).current_step = s.current_step ∧
    (evaluator_agent s r).plan = s.plan := by
  unfold evaluator_agent
  split
  · exact ⟨rfl, rfl⟩
  · split
    · exact ⟨rfl, rfl⟩
    · cases r <;> exact ⟨rfl, rfl⟩

theorem runLoop_reaches (results : Nat → List SearchResult) (resps : Nat → EvalResp) :
    ∀ (n : Nat) (state : ResearchState),
      state.plan.length ≤ state.current_step + n →
      should_continue (runLoop results resps state n) = "synthesize" := by
  intro n
  induction n with
  | zero =>
    intro s h
    show should_continue s = "synthesize"
    unfold should_continue
    rw [if_neg (Nat.not_lt.mpr (by omega))]
  | succ n ih =>
    intro s h
    by_cases hc : s.current_step < s.plan.length
    · have hcont : should_continue s = "search" := by
        unfold should_continue
        rw [if_pos hc]
      show should_continue (runLoop results resps s (n + 1)) = "synthesize"
      unfold runLoop
      rw [if_pos hcont]
      apply ih
      have h1 : (search_agent s (results s.current_step)).current_step
          = s.current_step + 1 := search_agent_step s _ hc
      have h2 : (search_agent s (results s.current_step)).plan = s.plan :=
        search_agent_plan_frame s _
      have h3 := evaluator_agent_frame (search_agent s (results s.current_step))
        (resps s.current_step)
      rw [h3.1, h3.2, h1, h2]
      omega
    · have hsyn : should_continue s = "synthesize" := by
        unfold should_continue
        rw [if_neg hc]
      show should_continue (runLoop results resps s (n + 1)) = "synthesize"
      unfold runLoop
      rw [if_neg (by rw [hsyn]; decide)]
      exact hsyn

/-- C2: an invocation of `search_agent` made while `should_continue` says
`"search"` (how the loop drives it) increments `current_step` by exactly 1;
and from any state with `current_step = 0`, whatever each search returns
(empty lists included) and whatever the evaluator responses are, the loop
reaches the `"synthesize"` transition within `len(plan)` `search_agent`
calls. -/
theorem search_loop_termination :
    (∀ (state : ResearchState) (results : List SearchResult),
        should_continue state = "search" →
        (search_agent state results).current_step = state.current_step + 1) ∧
    (∀ (results : Nat → List SearchResult) (resps : Nat → EvalResp)
        (state : ResearchState),
        state.current_step = 0 →
        should_continue (runLoop results resps state state.plan.length) =
          "synthesize") := by
  constructor
  · intro s rs hc
    have hlt : s.current_step < s.plan.length := by
      by_contra hge
      unfold should_continue at hc
      rw [if_neg hge] at hc
      exact absurd hc (by decide)
    exact search_agent_step s rs hlt
  · intro results resps s h0
    apply runLoop_reaches
    omega

/-- Concrete instance of `search_loop_termination`: a two-query plan with
all-empty search results reaches synthesis, and the first in-loop call
advances the cursor to 1. -/
theorem search_loop_termination_witness :
    should_continue
        (runLoop (fun _ => []) (fun _ => Except.error "parse")
          { topic := "t", plan := ["q1", "q2"] } 2) = "synthesize" ∧
    (search_agent { topic := "t", plan := ["q1", "q2"] } []).current_step = 1 :=
  ⟨search_loop_termination.2 (fun _ => []) (fun _ => Except.error "parse")
      { topic := "t", plan := ["q1", "q2"] } rfl,
   search_loop_termination.1 { topic := "t", plan := ["q1", "q2"] } [] rfl⟩

/-! ### C5: score clamping, coercion drops and the 0.3 default -/

theorem scoreMapUpd_bad (m : Int → Option ℚ) (e : JsonEntry)
    (h : e.idC = none ∨ e.scoreC = none) : scoreMapUpd m e = m := by
  obtain ⟨idC, scoreC⟩ := e
  rcases h with h | h <;> simp only at h <;> subst h
  · rfl
  · cases idC <;> rfl

theorem scoreMap_foldl_bounds (l : List JsonEntry) :
    ∀ m : Int → Option ℚ,
      (∀ k q, m k = some q → 0 ≤ q ∧ q ≤ 1) →
      ∀ k q, l.foldl scoreMapUpd m k = some q → 0 ≤ q ∧ q ≤ 1 := by
  induction l with
  | nil => intro m hm k q h; exact hm k q h
  | cons e rest ih =>
    intro m hm
    refine ih (scoreMapUpd m e) ?_
    intro k q hk
    obtain ⟨idC, scoreC⟩ := e
    cases idC with
    | none => exact hm k q hk
    | some i =>
      cases scoreC with
      | none => exact hm k q hk
      | some q0 =>
        simp only [scoreMapUpd] at hk
        by_cases hki : k = i
        · rw [if_pos hki] at hk
          injection hk with hk
          subst hk
          exact ⟨le_max_left 0 _, max_le (by norm_num) (min_le_left 1 q0)⟩
        · rw [if_neg hki] at hk
          exact hm k q hk

/-- C5: for every model response parsed as a JSON array, every entry whose
`id` and `score` coerce has its score clamped into `[0,1]` in the score map;
every entry failing either coercion is dropped (it never affects the map);
and an unscored source whose index has no surviving map entry is attached
with the default score `0.3` — its record otherwise unchanged, so no
`eval_error` annotation is added on this path. -/
theorem evaluator_score_clamping :
    (∀ (entries : List JsonEntry) (k : Int) (q : ℚ),
        scoreMap entries k = some q → 0 ≤ q ∧ q ≤ 1) ∧
    (∀ (m : Int → Option ℚ) (i : Int) (q : ℚ),
        scoreMapUpd m ⟨some i, some q⟩ i = some (max 0 (min 1 q))) ∧
    (∀ (pre post : List JsonEntry) (e : JsonEntry),
        e.idC = none ∨ e.scoreC = none →
        scoreMap (pre ++ e :: post) = scoreMap (pre ++ post)) ∧
    (∀ (sources kept : List Source) (toScore : List ScoreItem)
        (entries : List JsonEntry) (item : ScoreItem), item ∈ toScore →
        { (sources.get? item.id).getD default with
          score := some ((scoreMap entries (item.id : Int)).getD qPointThree) }
          ∈ attachScores sources kept toScore (scoreMap entries)) ∧
    (∀ (sources kept : List Source) (toScore : List ScoreItem)
        (entries : List JsonEntry) (item : ScoreItem), item ∈ toScore →
        scoreMap entries (item.id : Int) = none →
        { (sources.get? item.id).getD default with score := some qPointThree }
          ∈ attachScores sources kept toScore (scoreMap entries)) := by
  refine ⟨?_, ?_, ?_, ?_, ?_⟩
  · intro entries k q h
    exact scoreMap_foldl_bounds entries (fun _ => none) (by intro k q h; cases h) k q h
  · intro m i q
    simp [scoreMapUpd]
  · intro pre post e he
    unfold scoreMap
    rw [List.foldl_append, List.foldl_append, List.foldl_cons, scoreMapUpd_bad _ e he]
  · intro sources kept toScore entries item hitem
    unfold attachScores
    exact List.mem_append_right _ (List.mem_map_of_mem _ hitem)
  · intro sources kept toScore entries item hitem hnone
    unfold attachScores
    apply List.mem_append_right
    have : { (sources.get? item.id).getD default with
        score := some ((scoreMap entries (item.id : Int)).getD qPointThree) } =
        { (sources.get? item.id).getD default with score := some qPointThree } := by
      rw [hnone]
      rfl
    exact this ▸ List.mem_map_of_mem _ hitem

/-- Concrete instance of `evaluator_score_clamping`: an out-of-range score 5
for id 0 is clamped to 1; a non-coercible entry is dropped so id 1 falls back
to the 0.3 default with no `eval_error`. -/
theorem evaluator_score_clamping_witness :
    ((0 : ℚ) ≤ 1 ∧ (1 : ℚ) ≤ 1) ∧
    { mkSampleSource "b" with score := some qPointThree }
      ∈ attachScores [mkSampleSource "a", mkSampleSource "b"] []
          [⟨0, "a", "c"⟩, ⟨1, "b", "c"⟩]
          (scoreMap [⟨some 0, some 5⟩, ⟨none, some 1⟩]) := by
  constructor
  · exact evaluator_score_clamping.1 [⟨some 0, some 5⟩, ⟨none, some 1⟩] 0 1 (by decide)
  · have h := evaluator_score_clamping.2.2.2.2
      [mkSampleSource "a", mkSampleSource "b"] [] [⟨0, "a", "c"⟩, ⟨1, "b", "c"⟩]
      [⟨some 0, some 5⟩, ⟨none, some 1⟩] ⟨1, "b", "c"⟩
      (by decide) (by decide)
    simpa [mkSampleSource] using h

/-! ### C7: retry/backoff contract of `generate_text` -/

theorem one_le_two_pow_q (i : Nat) : (1 : ℚ) ≤ 2 ^ i :=
  one_le_pow₀ (by norm_num)

theorem min_double_cap (d : ℚ) (i : Nat) :
    min (min (d * 2) 30 * 2 ^ i) 30 = min (d * 2 ^ (i + 1)) 30 := by
  rcases le_total (d * 2) 30 with h | h
  · rw [min_eq_left h]
    have heq : d * 2 * 2 ^ i = d * 2 ^ (i + 1) := by ring
    rw [heq]
  · have h2 : (30 : ℚ) ≤ 30 * 2 ^ i := by
      nlinarith [one_le_two_pow_q i]
    have h3 : (30 : ℚ) ≤ d * 2 ^ (i + 1) := by
      calc (30 : ℚ) ≤ d * 2 := h
        _ = d * 2 * 1 := by ring
        _ ≤ d * 2 * 2 ^ i :=
            mul_le_mul_of_nonneg_left (one_le_two_pow_q i) (le_trans (by norm_num) h)
        _ = d * 2 ^ (i + 1) := by ring
    rw [min_eq_right h, min_eq_right h2, min_eq_right h3]

theorem genLoop_len (outcomes : Nat → ApiOutcome) :
    ∀ (r attempt : Nat) (d : ℚ), r ≠ 0 →
      (genLoop outcomes attempt r d).2.length ≤ r - 1 := by
  intro r
  induction r with
  | zero => intro attempt d h; exact absurd rfl h
  | succ r ih =>
    intro attempt d _
    rcases ho : outcomes attempt with t | m | m
    · simp [genLoop, ho]
    · by_cases hrl : isRateLimitMsg m
      · by_cases hr : 0 < r
        · have := ih (attempt + 1) (min (d * 2) 30) (by omega)
          simp only [genLoop, ho, if_pos hrl, if_pos hr, List.length_cons]
          omega
        · simp [genLoop, ho, hrl, hr]
      · simp [genLoop, ho, hrl]
    · simp [genLoop, ho]

theorem genLoop_delays (outcomes : Nat → ApiOutcome) :
    ∀ (r attempt : Nat) (d : ℚ), d ≤ 30 → ∀ i,
      i < (genLoop outcomes attempt r d).2.length →
      (genLoop outcomes attempt r d).2[i]? = some (min (d * 2 ^ i) 30) := by
  intro r
  induction r with
  | zero => intro attempt d hd i hi; simp [genLoop] at hi
  | succ r ih =>
    intro attempt d hd i hi
    rcases ho : outcomes attempt with t | m | m
    · simp [genLoop, ho] at hi
    · by_cases hrl : isRateLimitMsg m
      · by_cases hr : 0 < r
        · simp only [genLoop, ho, if_pos hrl, if_pos hr] at hi ⊢
          cases i with
          | zero =>
            simp only [List.getElem?_cons_zero]
            rw [pow_zero, mul_one, min_eq_left hd]
          | succ i =>
            simp only [List.getElem?_cons_succ]
            simp only [List.length_cons] at hi
            rw [ih (attempt + 1) (min (d * 2) 30) (min_le_right _ _) i (by omega)]
            rw [min_double_cap]
        · simp [genLoop, ho, hrl, hr] at hi
      · simp [genLoop, ho, hrl] at hi
    · simp [genLoop, ho] at hi

/-- C7: `generate_text` makes at most 3 attempts — at most 2 backoff sleeps;
the `i`-th backoff delay is `min(3·2^i, 30)`, the doubling sequence starting
at 3 capped at 30; three rate-limit-class client errors exhaust the retries
and fail with the distinguished rate-limit-exceeded error; a
non-rate-limit client error on the first attempt propagates immediately with
no retry and no sleep. -/
theorem generate_text_retry_spec (outcomes : Nat → ApiOutcome) :
    ((generate_text outcomes).2.length ≤ 2) ∧
    (∀ i, i < (generate_text outcomes).2.length →
      (generate_text outcomes).2[i]? = some (min (3 * 2 ^ i) 30)) ∧
    (∀ m0 m1 m2,
      outcomes 0 = .clientError m0 → isRateLimitMsg m0 = true →
      outcomes 1 = .clientError m1 → isRateLimitMsg m1 = true →
      outcomes 2 = .clientError m2 → isRateLimitMsg m2 = true →
      generate_text outcomes = (.error (.rateLimitExceeded m2), [3, 6])) ∧
    (∀ m, outcomes 0 = .clientError m → isRateLimitMsg m = false →
      generate_text outcomes = (.error (.clientErr m), [])) := by
  refine ⟨?_, ?_, ?_, ?_⟩
  · exact genLoop_len outcomes 3 0 3 (by omega)
  · intro i hi
    exact genLoop_delays outcomes 3 0 3 (by norm_num) i hi
  · intro m0 m1 m2 h0 hrl0 h1 hrl1 h2 hrl2
    unfold generate_text
    simp [genLoop, h0, hrl0, h1, hrl1, h2, hrl2]
    norm_num
  · intro m h0 hrl0
    unfold generate_text
    simp [genLoop, h0, hrl0]

/-- Concrete instance of `generate_text_retry_spec`: three straight 429
responses exhaust the retries after backoffs of 3 and 6 seconds. -/
theorem generate_text_retry_spec_witness :
    generate_text (fun _ => ApiOutcome.clientError "429 quota") =
      (Except.error (GenError.rateLimitExceeded "429 quota"), [3, 6]) :=
  (generate_text_retry_spec (fun _ => ApiOutcome.clientError "429 quota")).2.2.1
    "429 quota" "429 quota" "429 quota" rfl (by decide) rfl (by decide) rfl (by decide)

/-! ### C1: the filter / top-3-fallback policy of the evaluator -/

theorem filter_insertDesc (x : Source) (q : ℚ) (l : List Source) :
    (insertDesc x l).filter (fun s => scoreD s = q) =
      if scoreD x = q then x :: l.filter (fun s => scoreD s = q)
      else l.filter (fun s => scoreD s = q) := by
  induction l with
  | nil =>
    by_cases hx : scoreD x = q <;> simp [insertDesc, List.filter_cons, hx]
  | cons y ys ih =>
    simp only [insertDesc]
    by_cases hxy : scoreD x < scoreD y
    · rw [if_pos hxy]
      by_cases hy : scoreD y = q
      · have hx : ¬scoreD x = q := by
          intro hx
          rw [hx, ← hy] at hxy
          exact lt_irrefl _ hxy
        simp [List.filter_cons, hy, hx, ih]
      · rw [List.filter_cons, if_neg (by simpa using hy), ih]
        by_cases hx : scoreD x = q <;>
          simp [List.filter_cons, hy, hx]
    · rw [if_neg hxy]
      by_cases hx : scoreD x = q <;> simp [List.filter_cons, hx]

theorem sortByScoreDesc_filter_stable (q : ℚ) (l : List Source) :
    (sortByScoreDesc l).filter (fun s => scoreD s = q) =
      l.filter (fun s => scoreD s = q) := by
  induction l with
  | nil => rfl
  | cons x xs ih =>
    show (insertDesc x (sortByScoreDesc xs)).filter _ = _
    rw [filter_insertDesc]
    by_cases hx : scoreD x = q
    · rw [if_pos hx, ih, List.filter_cons, if_pos (by simpa using hx)]
    · rw [if_neg hx, ih, List.filter_cons, if_neg (by simpa using hx)]

theorem insertDesc_pairwise (x : Source) (l : List Source)
    (h : l.Pairwise (fun a b => scoreD b ≤ scoreD a)) :
    (insertDesc x l).Pairwise (fun a b => scoreD b ≤ scoreD a) := by
  induction l with
  | nil => simp [insertDesc]
  | cons y ys ih =>
    obtain ⟨hy, hys⟩ := List.pairwise_cons.mp h
    simp only [insertDesc]
    by_cases hxy : scoreD x < scoreD y
    · rw [if_pos hxy]
      refine List.pairwise_cons.mpr ⟨?_, ih hys⟩
      intro z hz
      rcases List.mem_cons.mp ((insertDesc_perm x ys).mem_iff.mp hz) with rfl | hzys
      · exact le_of_lt hxy
      · exact hy z hzys
    · rw [if_neg hxy]
      refine List.pairwise_cons.mpr ⟨?_, h⟩
      intro z hz
      rcases List.mem_cons.mp hz with rfl | hzys
      · exact not_lt.mp hxy
      · exact le_trans (hy z hzys) (not_lt.mp hxy)

theorem sortByScoreDesc_pairwise (l : List Source) :
    (sortByScoreDesc l).Pairwise (fun a b => scoreD b ≤ scoreD a) := by
  induction l with
  | nil => exact List.Pairwise.nil
  | cons x xs ih => exact insertDesc_pairwise x _ ih

/-- C1 (counterexample): on the parse-failure path `evaluator_agent` returns
before the `score >= 0.6` filter, so with four unscored sources and a parse
failure it keeps all four defaulted sources, while the claimed policy
(filter, else top 3) would keep only three.  The claim that the filter
applies on both paths is therefore false. -/
theorem evaluator_parse_failure_skips_filter_cx :
    (evaluator_agent fourSourceState (Except.error "boom")).sources ≠
      specFilterPolicy (evalFailPath fourSourceState.sources
        (evalPartition fourSourceState.sources).1
        (evalPartition fourSourceState.sources).2 "boom") := by decide

/-- C1 (amended): for a non-empty sources list with at least one unscored
source, on the parse-success path the resulting `state.sources` is exactly
the kept sources with score ≥ 0.6 or, if that set is empty, the top 3 kept
sources by score descending with ties broken by relative order in the kept
list (already-scored sources in original order followed by newly scored ones
in original order) — the sort being a stable descending permutation; on the
parse-failure path no filter is applied and the result is the kept list with
every unscored source defaulted to 0.3 and annotated. -/
theorem evaluator_filter_policy (state : ResearchState) (entries : List JsonEntry)
    (e : String) (h : state.sources ≠ [])
    (ht : (evalPartition state.sources).2 ≠ []) :
    ((evaluator_agent state (.ok entries)).sources =
      specFilterPolicy (keptAfterScoring state.sources entries)) ∧
    ((evaluator_agent state (.error e)).sources =
      evalFailPath state.sources (evalPartition state.sources).1
        (evalPartition state.sources).2 e) ∧
    (∀ l : List Source, (sortByScoreDesc l).Perm l) ∧
    (∀ l : List Source,
      (sortByScoreDesc l).Pairwise (fun a b => scoreD b ≤ scoreD a)) ∧
    (∀ (l : List Source) (q : ℚ),
      (sortByScoreDesc l).filter (fun s => scoreD s = q) =
        l.filter (fun s => scoreD s = q)) := by
  refine ⟨?_, ?_, sortByScoreDesc_perm, sortByScoreDesc_pairwise,
    fun l q => sortByScoreDesc_filter_stable q l⟩
  · unfold evaluator_agent
    rw [if_neg h, if_neg ht]
    rfl
  · unfold evaluator_agent
    rw [if_neg h, if_neg ht]

/-- Concrete instance of `evaluator_filter_policy` at a four-source state:
the empty entry list scores everything 0.3, so the success path returns the
top-3 fallback, while the failure path keeps all four. -/
theorem evaluator_filter_policy_witness :
    (evaluator_agent fourSourceState (Except.ok [])).sources =
      specFilterPolicy (keptAfterScoring fourSourceState.sources []) ∧
    (evaluator_agent fourSourceState (Except.error "boom")).sources =
      evalFailPath fourSourceState.sources
        (evalPartition fourSourceState.sources).1
        (evalPartition fourSourceState.sources).2 "boom" :=
  ⟨(evaluator_filter_policy fourSourceState [] "boom" (by decide) (by decide)).1,
   (evaluator_filter_policy fourSourceState [] "boom" (by decide) (by decide)).2.1⟩

end AutoResearcher
